import Mathlib

/-!
Shallow embedding of the Task ⇄ FHIR CarePlan mapping layer of the
openmrs-esm-task-list repository (the functions of `task-list.resource.ts`:
`buildCarePlan`, `createTaskFromCarePlan`, `extractDueDate`,
`parseAssignment`, `useTaskList`, `saveTask`, `updateTask`,
`toggleTaskCompletion`, `deleteTask`), together with theorems checking the
claims of the specification about it.

Modelling conventions:
* JavaScript `Date` values are modelled by their millisecond timestamp
  (`Int`, as returned by `Date.prototype.getTime`).  The external
  framework utilities `parseDate` and `Date.prototype.toISOString` form an
  inverse pair, so a wire date string is modelled by the timestamp it
  denotes; `parseDate` applied to an absent `created` field (which yields
  the current instant at runtime) is modelled by the timestamp `0`, a
  value no claim depends on.
* JavaScript optional fields / `undefined` are modelled with `Option`;
  a truthiness test `if (x)` on an optional string is `x` present and
  non-empty.
* Arrays the source treats interchangeably with `undefined`
  (`performer ?? []`, `detail.extension || []`) are modelled as plain
  lists, with the empty list standing for both.
* `String.prototype.split` with a one-character separator is embedded as
  structural recursion on the character list (`jsSplit`), matching the
  JavaScript semantics (splitting `""` yields `[""]`, a trailing
  separator yields a trailing empty piece).
* `Array.prototype.sort` with a comparator `c` is a stable sort placing
  `a` no later than `b` whenever `c(a, b) ≤ 0`; it is embedded as
  `List.mergeSort` with exactly that relation.
-/

namespace TaskList

abbrev Date := Int

inductive AssigneeType
  | person
  | role
deriving DecidableEq, Repr

structure Assignee where
  uuid : String
  display : Option String
  type : AssigneeType
deriving DecidableEq, Repr

inductive DueDateType
  | THIS_VISIT
  | NEXT_VISIT
  | DATE
deriving DecidableEq, Repr

/-- Runtime shape of `TaskDueDate`.  The source declares a tagged union
(`TaskDueDateDate | TaskDueDateVisit`), but `createTaskFromCarePlan`
constructs due-date objects whose `type` field may be `undefined` (hidden
by an `as` cast) and which never carry a `referenceVisitUuid` property, so
every field is optional here. -/
structure TaskDueDate where
  type : Option DueDateType
  date : Option Date
  referenceVisitUuid : Option String
deriving DecidableEq, Repr

structure Task where
  uuid : String
  name : String
  status : Option String
  dueDate : Option TaskDueDate
  createdDate : Date
  rationale : Option String
  assignee : Option Assignee
  createdBy : Option String
  completed : Bool
deriving DecidableEq, Repr

structure TaskInput where
  name : String
  dueDate : Option TaskDueDate
  rationale : Option String
  assignee : Option Assignee
deriving DecidableEq, Repr

/-- FHIR reference (`fhir.Reference`): only the fields the source reads. -/
structure Reference where
  reference : Option String
  display : Option String
deriving DecidableEq, Repr

/-- FHIR period; the source only uses `scheduledPeriod.end`. -/
structure Period where
  end_ : Option Date
deriving DecidableEq, Repr

/-- FHIR extension, restricted to the value kinds the source reads
(`valueCode`, `valueString`, `valueReference`). -/
structure Extension where
  url : String
  valueCode : Option String
  valueString : Option String
  valueReference : Option Reference
deriving DecidableEq, Repr

structure CarePlanActivityDetail where
  status : Option String
  description : Option String
  performer : List Reference
  extension : List Extension
  scheduledPeriod : Option Period
deriving DecidableEq, Repr

structure CarePlanActivity where
  detail : Option CarePlanActivityDetail
deriving DecidableEq, Repr

/-- The wire entity: `fhir.CarePlan` extended with the `created` and
`author` fields added by the repository (`types.ts`). -/
structure CarePlan where
  resourceType : String
  id : Option String
  status : String
  intent : String
  description : Option String
  subject : Option Reference
  activity : List CarePlanActivity
  created : Option Date
  author : Option Reference
deriving DecidableEq, Repr

/-- `Partial<Task>`, the parameter type of `buildCarePlan`. -/
structure PartialTask where
  uuid : Option String
  name : Option String
  status : Option String
  dueDate : Option TaskDueDate
  createdDate : Option Date
  rationale : Option String
  assignee : Option Assignee
  createdBy : Option String
  completed : Option Bool
deriving DecidableEq, Repr

/-- A full `Task` viewed as a `Partial<Task>` (every field present). -/
def Task.toPartial (t : Task) : PartialTask :=
  ⟨some t.uuid, some t.name, t.status, t.dueDate, some t.createdDate,
    t.rationale, t.assignee, t.createdBy, some t.completed⟩

/-- A `TaskInput` viewed as a `Partial<Task>` (no `uuid`, `status`,
`completed`, `createdDate` or `createdBy`). -/
def TaskInput.toPartial (t : TaskInput) : PartialTask :=
  ⟨none, some t.name, none, t.dueDate, none, t.rationale, t.assignee, none, none⟩

/-- Framework base URL constant; its concrete value is immaterial. -/
def restBaseUrl : String := "/ws/rest/v1"

def carePlanEndpoint : String := restBaseUrl ++ "/tasks/careplan"

def taskListSWRKey (patientUuid : String) : String :=
  carePlanEndpoint ++ "?subject=Patient/" ++ patientUuid

def dueKindExtensionUrl : String :=
  "http://openmrs.org/fhir/StructureDefinition/activity-dueKind"

def associatedEncounterExtensionUrl : String :=
  "http://hl7.org/fhir/StructureDefinition/encounter-associatedEncounter"

/-- JavaScript truthiness of an optional string: present and non-empty. -/
def strTruthy : Option String → Bool
  | some s => s ≠ ""
  | none => false

/-- Splits a character list at every occurrence of `sep`; always returns
at least one (possibly empty) piece, like JavaScript `split`. -/
def splitOnChar (sep : Char) : List Char → List (List Char)
  | [] => [[]]
  | c :: cs =>
    match splitOnChar sep cs with
    | [] => [[]]
    | piece :: rest =>
      if c = sep then [] :: piece :: rest else (c :: piece) :: rest

/-- JavaScript `s.split(sep)` for a one-character separator. -/
def jsSplit (s : String) (sep : Char) : List String :=
  (splitOnChar sep s.data).map (fun cs => String.mk cs)

/-- JavaScript `s.startsWith(pre)`. -/
def jsStartsWith (s pre : String) : Bool :=
  pre.data.isPrefixOf s.data

/-- JavaScript `s.substring(n)` (drop the first `n` characters). -/
def jsSubstringFrom (s : String) (n : Nat) : String :=
  String.mk (s.data.drop n)

inductive AssignmentType
  | provider
  | providerRole
deriving DecidableEq, Repr

structure Assignment where
  type : AssignmentType
  value : Assignee
deriving DecidableEq, Repr

/-- `parseAssignment(performer)`: recognizes `Practitioner/{uuid}` and
`PractitionerRole/{uuid}` references (with a truthy identifier part);
anything else is logged and yields no assignment. -/
def parseAssignment (performer : Reference) : Option Assignment :=
  let reference := performer.reference.getD ""
  let parts := jsSplit reference '/'
  let resourceType := parts.head?
  let identifier := parts[1]?
  match identifier with
  | some ident =>
    if resourceType = some "Practitioner" ∧ ident ≠ "" then
      some ⟨AssignmentType.provider, ⟨ident, performer.display, AssigneeType.person⟩⟩
    else if resourceType = some "PractitionerRole" ∧ ident ≠ "" then
      some ⟨AssignmentType.providerRole, ⟨ident, performer.display, AssigneeType.role⟩⟩
    else none
  | none => none

/-- Return type of `extractDueDate` (the declared `dueDateCreatedDate`
field is never assigned by the source and is omitted). -/
structure DueDateInfo where
  dueDate : Option Date
  dueDateType : Option DueDateType
deriving DecidableEq, Repr

/-- JavaScript `ext.valueCode || ext.valueString`. -/
def extensionValue (ext : Extension) : Option String :=
  match ext.valueCode with
  | some c => if c ≠ "" then some c else ext.valueString
  | none => ext.valueString

/-- One iteration of the `for (const ext of detail.extension)` loop in
`extractDueDate`; the state is `(dueDateType, visitUuid)`. -/
def dueKindStep (acc : Option DueDateType × Option String) (ext : Extension) :
    Option DueDateType × Option String :=
  if ext.url = dueKindExtensionUrl then
    match extensionValue ext with
    | some v =>
      if v = "this-visit" then (some DueDateType.THIS_VISIT, acc.2)
      else if v = "next-visit" then (some DueDateType.NEXT_VISIT, acc.2)
      else if v = "date" then (some DueDateType.DATE, acc.2)
      else acc
    | none => acc
  else if ext.url = associatedEncounterExtensionUrl then
    match ext.valueReference.bind Reference.reference with
    | some r =>
      if r ≠ "" ∧ jsStartsWith r "Encounter/" then
        (acc.1, some (jsSubstringFrom r 10))
      else acc
    | none => acc
  else acc

/-- `extractDueDate(detail)`: reads the due-date tag from the
`activity-dueKind` extension, falls back to `DATE` when an end date is
present with no recognized tag, and returns the parsed end date.  The
`visitUuid` component of the loop state is computed but discarded, exactly
as in the source. -/
def extractDueDate : Option CarePlanActivityDetail → DueDateInfo
  | none => ⟨none, none⟩
  | some detail =>
    let st := detail.extension.foldl dueKindStep (none, none)
    let dueDateType := st.1
    match detail.scheduledPeriod.bind Period.end_ with
    | some e =>
      ⟨some e, if dueDateType.isNone then some DueDateType.DATE else dueDateType⟩
    | none => ⟨none, dueDateType⟩

/-- `carePlan?.activity?.[0]` followed by `activity?.detail`. -/
def carePlanDetail (carePlan : CarePlan) : Option CarePlanActivityDetail :=
  carePlan.activity.head?.bind CarePlanActivity.detail

/-- One iteration of the `performers.forEach` loop in
`createTaskFromCarePlan` (both recognized assignment kinds overwrite
`task.assignee`; an unrecognized performer leaves it unchanged). -/
def assigneeStep (acc : Option Assignee) (performer : Reference) : Option Assignee :=
  match parseAssignment performer with
  | none => acc
  | some assignment =>
    if assignment.type = AssignmentType.provider then some assignment.value
    else if assignment.type = AssignmentType.providerRole then some assignment.value
    else acc

/-- `createTaskFromCarePlan(carePlan)`: the decode direction. -/
def createTaskFromCarePlan (carePlan : CarePlan) : Task :=
  let detail := carePlanDetail carePlan
  let status := detail.bind CarePlanActivityDetail.status
  let performers := (detail.map CarePlanActivityDetail.performer).getD []
  let info := extractDueDate detail
  { uuid := carePlan.id.getD ""
    name := (detail.bind CarePlanActivityDetail.description).getD ""
    status := status
    createdDate := carePlan.created.getD 0
    dueDate := some ⟨info.dueDateType, info.dueDate, none⟩
    rationale := carePlan.description
    assignee := performers.foldl assigneeStep none
    createdBy := carePlan.author.bind Reference.display
    completed := status = some "completed" }

/-- `buildCarePlan(patientUuid, task)`: the encode direction. -/
def buildCarePlan (patientUuid : String) (task : PartialTask) : CarePlan :=
  let performer : List Reference :=
    (match task.assignee with
      | some a =>
        if a.uuid ≠ "" then [⟨some ("Practitioner/" ++ a.uuid), a.display⟩] else []
      | none => []) ++
    (match task.assignee with
      | some a =>
        if a.type = AssigneeType.role ∧ a.uuid ≠ "" then
          [⟨some ("PractitionerRole/" ++ a.uuid), a.display⟩]
        else []
      | none => [])
  let isVisitDue : Prop :=
    (task.dueDate.bind TaskDueDate.type) = some DueDateType.THIS_VISIT ∨
      (task.dueDate.bind TaskDueDate.type) = some DueDateType.NEXT_VISIT
  let detail : CarePlanActivityDetail :=
    { status := some (task.status.getD "not-started")
      description := task.name
      performer := performer
      extension :=
        if isVisitDue then
          ⟨dueKindExtensionUrl,
            some (if (task.dueDate.bind TaskDueDate.type) = some DueDateType.THIS_VISIT
                  then "this-visit" else "next-visit"),
            none, none⟩ ::
          (match task.dueDate.bind TaskDueDate.referenceVisitUuid with
            | some v =>
              if v ≠ "" then
                [⟨associatedEncounterExtensionUrl, none, none,
                  some ⟨some ("Encounter/" ++ v), none⟩⟩]
              else []
            | none => [])
        else if (task.dueDate.bind TaskDueDate.type) = some DueDateType.DATE ∧
            (task.dueDate.bind TaskDueDate.date).isSome then
          [⟨dueKindExtensionUrl, some "date", none, none⟩]
        else []
      scheduledPeriod :=
        if isVisitDue then some ⟨none⟩
        else if (task.dueDate.bind TaskDueDate.type) = some DueDateType.DATE ∧
            (task.dueDate.bind TaskDueDate.date).isSome then
          some ⟨task.dueDate.bind TaskDueDate.date⟩
        else none }
  { resourceType := "CarePlan"
    id := if strTruthy task.uuid then task.uuid else none
    status := if task.completed.getD false then "completed" else "active"
    intent := "plan"
    description := task.rationale
    subject := some ⟨some ("Patient/" ++ patientUuid), none⟩
    activity := [⟨some detail⟩]
    created := none
    author := none }

/-- An HTTP request issued through `openmrsFetch`. -/
inductive HttpMethod
  | post
  | put
deriving DecidableEq, Repr

structure TaskRequest where
  method : HttpMethod
  url : String
  body : CarePlan
deriving DecidableEq, Repr

/-- `saveTask(patientUuid, task)`. -/
def saveTask (patientUuid : String) (task : TaskInput) : TaskRequest :=
  ⟨HttpMethod.post, carePlanEndpoint, buildCarePlan patientUuid task.toPartial⟩

/-- `updateTask(patientUuid, task)`. -/
def updateTask (patientUuid : String) (task : Task) : TaskRequest :=
  ⟨HttpMethod.put, carePlanEndpoint ++ "/" ++ task.uuid,
    buildCarePlan patientUuid task.toPartial⟩

/-- `toggleTaskCompletion(patientUuid, task, completed)`. -/
def toggleTaskCompletion (patientUuid : String) (task : Task) (completed : Bool) :
    TaskRequest :=
  let status : String :=
    if completed then "completed"
    else if strTruthy task.status ∧ task.status ≠ some "completed" then
      task.status.getD ""
    else "in-progress"
  updateTask patientUuid { task with completed := completed, status := some status }

/-- `deleteTask(patientUuid, task)`: soft delete via `updateTask`. -/
def deleteTask (patientUuid : String) (task : Task) : TaskRequest :=
  updateTask patientUuid { task with status := some "cancelled" }

/-- `a.dueDate?.date?.getTime() ?? 0` in the `useTaskList` comparator. -/
def taskDueTime (t : Task) : Int :=
  (t.dueDate.bind TaskDueDate.date).getD 0

/-- The comparator passed to `activeTasks.sort` in `useTaskList`. -/
def taskCompare (a b : Task) : Int :=
  if a.completed ≠ b.completed then (if a.completed then 1 else -1)
  else taskDueTime a - taskDueTime b

/-- `a` may be placed no later than `b` by the sort: `taskCompare a b ≤ 0`. -/
def taskLE (a b : Task) : Bool :=
  taskCompare a b ≤ 0

/-- `data?.data?.entry?.map(...)` in `useTaskList`. -/
def parsedTasks (entries : List CarePlan) : List Task :=
  entries.map createTaskFromCarePlan

/-- `parsedTasks.filter((task) => Boolean(task.uuid))`. -/
def validTasks (entries : List CarePlan) : List Task :=
  (parsedTasks entries).filter (fun task => task.uuid ≠ "")

/-- `validTasks.filter((task) => task.status !== cancelled)`. -/
def activeTasks (entries : List CarePlan) : List Task :=
  (validTasks entries).filter (fun task => task.status ≠ some "cancelled")

/-- The `tasks` array computed by `useTaskList`: decode, keep tasks with a
usable identifier, drop cancelled tasks, then stable-sort with the
completion/due-date comparator. -/
def useTaskListTasks (entries : List CarePlan) : List Task :=
  (activeTasks entries).mergeSort taskLE

/-- The performer list of the first activity detail of a `CarePlan`
(`detail?.performer ?? []`). -/
def carePlanPerformers (carePlan : CarePlan) : List Reference :=
  ((carePlanDetail carePlan).map CarePlanActivityDetail.performer).getD []

/-- Fixture: a `THIS_VISIT` task with every optional field populated and
no resolved date. -/
def thisVisitTask : Task :=
  { uuid := "task-1", name := "Follow up", status := some "in-progress",
    dueDate := some ⟨some DueDateType.THIS_VISIT, none, some "visit-1"⟩,
    createdDate := 0, rationale := some "because",
    assignee := some ⟨"prov-1", some "Dr A", AssigneeType.person⟩,
    createdBy := some "Admin", completed := false }

/-- Fixture: a task input whose assignee is a provider role. -/
def rolePartialTask : PartialTask :=
  ⟨none, some "Review labs", none, none, none, none,
    some ⟨"role-1", some "Nurse", AssigneeType.role⟩, none, none⟩

/-- Fixture: a task input whose assignee is a person. -/
def personPartialTask : PartialTask :=
  ⟨none, some "Review labs", none, none, none, none,
    some ⟨"prov-1", some "Dr A", AssigneeType.person⟩, none, none⟩

/-- Fixture: a `CarePlan` with no activities, no detail and no extensions. -/
def emptyCarePlan : CarePlan :=
  ⟨"CarePlan", none, "active", "plan", none, none, [], none, none⟩

/-- Fixture: a detail with an end date and no `activity-dueKind` extension
(only an unrelated associated-encounter extension). -/
def fallbackDetail : CarePlanActivityDetail :=
  ⟨some "not-started", some "Old data", [],
    [⟨associatedEncounterExtensionUrl, none, none, some ⟨some "Encounter/v9", none⟩⟩],
    some ⟨some 1705708800000⟩⟩

/-- Fixture: a `CarePlan` around `fallbackDetail`. -/
def fallbackCarePlan : CarePlan :=
  ⟨"CarePlan", some "u1", "active", "plan", none, none, [⟨some fallbackDetail⟩], none, none⟩

/-- Fixture: a `CarePlan` whose decoded task has status `"cancelled"`. -/
def cancelledCarePlan : CarePlan :=
  ⟨"CarePlan", some "c1", "active", "plan", none, none,
    [⟨some ⟨some "cancelled", some "Old task", [], [], none⟩⟩], none, none⟩

/-- Fixture: a decodable `CarePlan` with id `a1`. -/
def cpA : CarePlan :=
  ⟨"CarePlan", some "a1", "active", "plan", none, none,
    [⟨some ⟨some "not-started", some "A", [], [], none⟩⟩], none, none⟩

/-- Fixture: a decodable `CarePlan` with id `b1` and the same sort key as
`cpA`. -/
def cpB : CarePlan :=
  ⟨"CarePlan", some "b1", "active", "plan", none, none,
    [⟨some ⟨some "not-started", some "B", [], [], none⟩⟩], none, none⟩

/-- Fixture: a task with status `"in-progress"` used to instantiate the
completion-toggle theorem. -/
def inProgressTask : Task :=
  ⟨"t1", "Check vitals", some "in-progress", none, 0, none, none, none, false⟩

/-- C1: a `THIS_VISIT` task with all optional fields populated, no resolved
date and a `referenceVisitUuid` does NOT round-trip through
`buildCarePlan` / `createTaskFromCarePlan`: the union tag and the absent
resolved date survive, but the decoded due date carries no
`referenceVisitUuid` (decoding parses the associated-encounter extension
into a local that is never returned), refuting the claimed round-trip. -/
theorem thisVisit_roundTrip_drops_referenceVisitUuid :
    (createTaskFromCarePlan (buildCarePlan "patient-1" thisVisitTask.toPartial)).dueDate =
      some ⟨some DueDateType.THIS_VISIT, none, none⟩ ∧
    thisVisitTask.dueDate = some ⟨some DueDateType.THIS_VISIT, none, some "visit-1"⟩ ∧
    (createTaskFromCarePlan (buildCarePlan "patient-1" thisVisitTask.toPartial)).dueDate ≠
      thisVisitTask.dueDate := by
  refine ⟨rfl, rfl, ?_⟩
  decide

/-- C2: for a role assignee `buildCarePlan` emits TWO performer entries —
a `Practitioner/{uuid}` reference built from the role uuid followed by
the `PractitionerRole/{uuid}` reference — refuting the claimed at-most-one
exclusivity; a person assignee yields the single claimed entry. -/
theorem buildCarePlan_role_assignee_two_performers :
    carePlanPerformers (buildCarePlan "P1" rolePartialTask) =
      [⟨some "Practitioner/role-1", some "Nurse"⟩,
        ⟨some "PractitionerRole/role-1", some "Nurse"⟩] ∧
    carePlanPerformers (buildCarePlan "P1" personPartialTask) =
      [⟨some "Practitioner/prov-1", some "Dr A"⟩] := by
  exact ⟨rfl, rfl⟩

/-- C4 (counterexample): decoding a `CarePlan` with no activities, no
detail and no extensions yields a task whose `dueDate` is NOT absent: it
is a present due-date object with absent tag and absent date. -/
theorem createTaskFromCarePlan_empty_dueDate_not_absent :
    (createTaskFromCarePlan emptyCarePlan).dueDate = some ⟨none, none, none⟩ ∧
    (createTaskFromCarePlan emptyCarePlan).dueDate ≠ none := by
  refine ⟨rfl, ?_⟩
  decide

/-- C4 (amended): decoding a `CarePlan` with no activities, no detail and
no extensions does not fail; it returns a task with empty uuid and name,
absent `status`, `rationale`, `assignee` and `createdBy`, `completed`
false, and a `dueDate` object that is present but has absent tag and
absent date. -/
theorem createTaskFromCarePlan_empty_lenient :
    (createTaskFromCarePlan emptyCarePlan).name = "" ∧
    (createTaskFromCarePlan emptyCarePlan).uuid = "" ∧
    (createTaskFromCarePlan emptyCarePlan).status = none ∧
    (createTaskFromCarePlan emptyCarePlan).rationale = none ∧
    (createTaskFromCarePlan emptyCarePlan).assignee = none ∧
    (createTaskFromCarePlan emptyCarePlan).createdBy = none ∧
    (createTaskFromCarePlan emptyCarePlan).completed = false ∧
    (createTaskFromCarePlan emptyCarePlan).dueDate = some ⟨none, none, none⟩ := by
  decide

/-- C6: for EVERY task, `toggleTaskCompletion` delegates to `updateTask`
with the next status: `"completed"` whenever marking complete (whatever
the current status); when marking incomplete, the current status when it
is present, non-empty and not `"completed"`; and `"in-progress"` when the
current status is absent, `"completed"` or empty. -/
theorem toggleTaskCompletion_next_status (patientUuid : String) (task : Task) :
    toggleTaskCompletion patientUuid task true =
      updateTask patientUuid { task with completed := true, status := some "completed" } ∧
    (∀ s : String, task.status = some s → s ≠ "" → s ≠ "completed" →
      toggleTaskCompletion patientUuid task false =
        updateTask patientUuid { task with completed := false, status := some s }) ∧
    ((task.status = none ∨ task.status = some "completed" ∨ task.status = some "") →
      toggleTaskCompletion patientUuid task false =
        updateTask patientUuid
          { task with completed := false, status := some "in-progress" }) := by
  refine ⟨rfl, ?_, ?_⟩
  · intro s hs hne hnc
    unfold toggleTaskCompletion
    rw [hs]
    simp [strTruthy, hne, hnc]
  · intro h
    rcases h with h | h | h <;>
      unfold toggleTaskCompletion <;> rw [h] <;> simp [strTruthy]

/-- C6 (witness): the completion-toggle theorem instantiated at a task
with status `"in-progress"`: toggled complete it gets `"completed"`,
toggled back it gets `"in-progress"`, and from `"completed"` toggling
back also yields `"in-progress"`. -/
theorem toggleTaskCompletion_next_status_witness :
    toggleTaskCompletion "P1" inProgressTask true =
      updateTask "P1" { inProgressTask with completed := true, status := some "completed" } ∧
    toggleTaskCompletion "P1" inProgressTask false =
      updateTask "P1" { inProgressTask with completed := false, status := some "in-progress" } ∧
    toggleTaskCompletion "P1" { inProgressTask with status := some "completed" } false =
      updateTask "P1" { { inProgressTask with status := some "completed" } with
        completed := false, status := some "in-progress" } := by
  obtain ⟨h1, h2, -⟩ := toggleTaskCompletion_next_status "P1" inProgressTask
  obtain ⟨-, -, h3⟩ := toggleTaskCompletion_next_status "P1"
    { inProgressTask with status := some "completed" }
  exact ⟨h1, h2 "in-progress" rfl (by decide) (by decide), h3 (Or.inr (Or.inl rfl))⟩

/-- C8: `saveTask` issues a POST to the collection endpoint whose body
carries no resource id, whose activity detail status defaults to
`"not-started"` and whose description is the given name; decoding that
body yields a task with the given name, status `"not-started"` and
`completed = false`. -/
theorem saveTask_create_defaults (patientUuid : String) (input : TaskInput) :
    (saveTask patientUuid input).method = HttpMethod.post ∧
    (saveTask patientUuid input).url = carePlanEndpoint ∧
    (saveTask patientUuid input).body.id = none ∧
    ((carePlanDetail (saveTask patientUuid input).body).bind
      CarePlanActivityDetail.status) = some "not-started" ∧
    ((carePlanDetail (saveTask patientUuid input).body).bind
      CarePlanActivityDetail.description) = some input.name ∧
    (createTaskFromCarePlan (saveTask patientUuid input).body).name = input.name ∧
    (createTaskFromCarePlan (saveTask patientUuid input).body).status = some "not-started" ∧
    (createTaskFromCarePlan (saveTask patientUuid input).body).completed = false := by
  exact ⟨rfl, rfl, rfl, rfl, rfl, rfl, rfl, rfl⟩

/-- C9: `deleteTask` issues exactly the update `updateTask` would issue
for the same task with status replaced by `"cancelled"`; every other field
of the updated task is passed through unchanged. -/
theorem deleteTask_soft_delete (patientUuid : String) (task : Task) :
    deleteTask patientUuid task =
      updateTask patientUuid { task with status := some "cancelled" } ∧
    ({ task with status := some "cancelled" } : Task).status = some "cancelled" ∧
    ({ task with status := some "cancelled" } : Task).uuid = task.uuid ∧
    ({ task with status := some "cancelled" } : Task).name = task.name ∧
    ({ task with status := some "cancelled" } : Task).dueDate = task.dueDate ∧
    ({ task with status := some "cancelled" } : Task).rationale = task.rationale ∧
    ({ task with status := some "cancelled" } : Task).assignee = task.assignee ∧
    ({ task with status := some "cancelled" } : Task).completed = task.completed ∧
    ({ task with status := some "cancelled" } : Task).createdDate = task.createdDate ∧
    ({ task with status := some "cancelled" } : Task).createdBy = task.createdBy := by
  exact ⟨rfl, rfl, rfl, rfl, rfl, rfl, rfl, rfl, rfl, rfl⟩

theorem dueKindStep_fst_of_ne (acc : Option DueDateType × Option String)
    (ext : Extension) (h : ext.url ≠ dueKindExtensionUrl) :
    (dueKindStep acc ext).1 = acc.1 := by
  unfold dueKindStep
  rw [if_neg h]
  split
  · split
    · split <;> rfl
    · rfl
  · rfl

theorem foldl_dueKindStep_fst (l : List Extension)
    (acc : Option DueDateType × Option String)
    (h : ∀ ext ∈ l, ext.url ≠ dueKindExtensionUrl) :
    (l.foldl dueKindStep acc).1 = acc.1 := by
  induction l generalizing acc with
  | nil => rfl
  | cons e l ih =>
    rw [List.foldl_cons, ih _ (fun x hx => h x (List.mem_cons_of_mem _ hx))]
    exact dueKindStep_fst_of_ne acc e (h e (List.mem_cons_self e l))

/-- C7: decoding an activity detail whose `scheduledPeriod.end` is set but
which carries no `activity-dueKind` extension yields a due date with tag
`DATE` (backward-compatibility fallback). -/
theorem extractDueDate_fallback_DATE (carePlan : CarePlan)
    (d : CarePlanActivityDetail) (e : Date)
    (hd : carePlanDetail carePlan = some d)
    (hext : ∀ ext ∈ d.extension, ext.url ≠ dueKindExtensionUrl)
    (hend : d.scheduledPeriod.bind Period.end_ = some e) :
    (extractDueDate (some d)).dueDateType = some DueDateType.DATE ∧
    (createTaskFromCarePlan carePlan).dueDate =
      some ⟨some DueDateType.DATE, some e, none⟩ := by
  have hfold : (d.extension.foldl dueKindStep (none, none)).1 = none :=
    foldl_dueKindStep_fst _ _ hext
  have h1 : extractDueDate (some d) = ⟨some e, some DueDateType.DATE⟩ := by
    simp [extractDueDate, hend, hfold]
  refine ⟨by rw [h1], ?_⟩
  simp [createTaskFromCarePlan, hd, h1]

/-- C7 (witness): the fallback theorem instantiated at a detail with an
end date and only an unrelated extension. -/
theorem extractDueDate_fallback_DATE_witness :
    (extractDueDate (some fallbackDetail)).dueDateType = some DueDateType.DATE ∧
    (createTaskFromCarePlan fallbackCarePlan).dueDate =
      some ⟨some DueDateType.DATE, some 1705708800000, none⟩ :=
  extractDueDate_fallback_DATE fallbackCarePlan fallbackDetail 1705708800000
    rfl (by decide) rfl

theorem assigneeStep_eq (acc : Option Assignee) (performer : Reference) :
    assigneeStep acc performer =
      ((parseAssignment performer).map Assignment.value).elim acc some := by
  unfold assigneeStep
  cases h : parseAssignment performer with
  | none => rfl
  | some a =>
    obtain ⟨ty, val⟩ := a
    cases ty <;> rfl

theorem foldl_assigneeStep_eq (l : List Reference) (acc : Option Assignee) :
    l.foldl assigneeStep acc =
      ((l.filterMap (fun p => (parseAssignment p).map Assignment.value)).getLast?).elim
        acc some := by
  induction l using List.reverseRecOn with
  | nil => rfl
  | append_singleton xs p ih =>
    rw [List.foldl_append, List.filterMap_append, List.foldl_cons, List.foldl_nil,
      assigneeStep_eq, ih]
    cases h : (parseAssignment p).map Assignment.value with
    | none => simp [List.filterMap_cons, h]
    | some v => simp [List.filterMap_cons, h, List.getLast?_concat]

/-- C10: the assignee of the decoded task is derived from the LAST recognized
performer reference (`Practitioner/{uuid}` or `PractitionerRole/{uuid}`
with non-empty uuid) in array order; unrecognized entries are skipped and
never clear an assignee set by an earlier entry. -/
theorem decode_assignee_last_recognized (carePlan : CarePlan) :
    (createTaskFromCarePlan carePlan).assignee =
      ((carePlanPerformers carePlan).filterMap
        (fun p => (parseAssignment p).map Assignment.value)).getLast? := by
  show ((carePlanPerformers carePlan).foldl assigneeStep none) = _
  rw [foldl_assigneeStep_eq]
  cases h : ((carePlanPerformers carePlan).filterMap
      (fun p => (parseAssignment p).map Assignment.value)).getLast? <;> rfl

/-- C5: a task decoded with status `"cancelled"` never appears in the
task list computed by `useTaskList`, whatever the fetched entries are. -/
theorem cancelled_not_in_taskList (entries : List CarePlan) (carePlan : CarePlan)
    (h : (createTaskFromCarePlan carePlan).status = some "cancelled") :
    createTaskFromCarePlan carePlan ∉ useTaskListTasks entries := by
  intro hmem
  rw [useTaskListTasks, List.mem_mergeSort, activeTasks] at hmem
  obtain ⟨-, hp⟩ := List.mem_filter.mp hmem
  rw [h] at hp
  simp at hp

/-- C5 (witness): the cancelled-exclusion theorem instantiated at a
concrete cancelled `CarePlan` listed in the response. -/
theorem cancelled_not_in_taskList_witness :
    createTaskFromCarePlan cancelledCarePlan ∉ useTaskListTasks [cancelledCarePlan] :=
  cancelled_not_in_taskList [cancelledCarePlan] cancelledCarePlan rfl

theorem taskLE_total (a b : Task) : taskLE a b || taskLE b a := by
  unfold taskLE taskCompare
  cases ha : a.completed <;> cases hb : b.completed <;>
    simp [Bool.or_eq_true, decide_eq_true_eq] <;> omega

theorem taskLE_trans (a b c : Task) :
    taskLE a b → taskLE b c → taskLE a c := by
  unfold taskLE taskCompare
  cases ha : a.completed <;> cases hb : b.completed <;> cases hc : c.completed <;>
    simp [decide_eq_true_eq] <;> omega

theorem taskLE_imp_completed (x y : Task) (h : taskLE x y) :
    x.completed = true → y.completed = true := by
  intro hx
  cases hy : y.completed with
  | true => rfl
  | false =>
    unfold taskLE taskCompare at h
    rw [hx, hy] at h
    simp at h

theorem taskLE_imp_due (x y : Task) (h : taskLE x y) :
    x.completed = y.completed → taskDueTime x ≤ taskDueTime y := by
  intro hxy
  unfold taskLE taskCompare at h
  rw [hxy] at h
  simp at h
  omega

/-- C3: for EVERY decoded task list, the task list computed by
`useTaskList` is a permutation of the decoded, valid, non-cancelled tasks
in which every incomplete task precedes every completed one and due dates
(with absent dates valued as the epoch 0) are non-decreasing within each
completion group; moreover any two tasks with equal sort keys keep their
input order (stability). -/
theorem useTaskListTasks_sorted_stable (entries : List CarePlan) :
    (useTaskListTasks entries).Perm (activeTasks entries) ∧
    (useTaskListTasks entries).Pairwise
      (fun x y => x.completed = true → y.completed = true) ∧
    (useTaskListTasks entries).Pairwise
      (fun x y => x.completed = y.completed → taskDueTime x ≤ taskDueTime y) ∧
    ∀ a b : Task, List.Sublist [a, b] (activeTasks entries) →
      a.completed = b.completed → taskDueTime a = taskDueTime b →
      List.Sublist [a, b] (useTaskListTasks entries) := by
  have hsorted := @List.sorted_mergeSort Task taskLE taskLE_trans taskLE_total
    (activeTasks entries)
  refine ⟨List.mergeSort_perm _ _, ?_, ?_, ?_⟩
  · exact hsorted.imp (fun h => taskLE_imp_completed _ _ h)
  · exact hsorted.imp (fun h => taskLE_imp_due _ _ h)
  · intro a b hsub hcomp hdue
    refine List.pair_sublist_mergeSort taskLE_trans taskLE_total ?_ hsub
    unfold taskLE taskCompare
    rw [hcomp, hdue]
    simp

/-- C3 (witness): the sort theorem instantiated at two concrete care
plans decoding to tasks with equal sort keys, whose relative order is
preserved. -/
theorem useTaskListTasks_sorted_stable_witness :
    (useTaskListTasks [cpA, cpB]).Perm (activeTasks [cpA, cpB]) ∧
    (useTaskListTasks [cpA, cpB]).Pairwise
      (fun x y => x.completed = true → y.completed = true) ∧
    (useTaskListTasks [cpA, cpB]).Pairwise
      (fun x y => x.completed = y.completed → taskDueTime x ≤ taskDueTime y) ∧
    List.Sublist [createTaskFromCarePlan cpA, createTaskFromCarePlan cpB]
      (useTaskListTasks [cpA, cpB]) := by
  obtain ⟨h1, h2, h3, h4⟩ := useTaskListTasks_sorted_stable [cpA, cpB]
  refine ⟨h1, h2, h3, h4 _ _ ?_ (by decide) (by decide)⟩
  have h : activeTasks [cpA, cpB] =
      [createTaskFromCarePlan cpA, createTaskFromCarePlan cpB] := by decide
  rw [h]

end TaskList
